import Mathlib

/-!
Verification of the paper-acquisition core of the `ingestor` repository.

The definitions below are a shallow embedding of
`src/parser/acquisition/retriever.py` (the retrieval orchestrator) and
`src/ingestor/extractors/paper/metadata.py` (paper metadata / BibTeX keys).

Modelling conventions:
* Python strings are Lean `String`; byte strings are `List UInt8`.
* Python `None` is `Option.none`; a fallible call that can raise is an
  `Except String` value or an oracle response with an explicit `raised` case.
* Network and filesystem effects are recorded as an explicit list of `Event`
  values returned next to the result, in the order the code performs them.
* External API clients (their modules are not part of the embedded sources)
  are abstracted as oracles: a per-source outcome function for the PDF
  sources and a `CrossrefOracle` for metadata resolution.  Dispatching to a
  configured client is recorded as a `netCall` event, following the spec
  text that every source-client call is an HTTP call.
-/

namespace Ingestor

set_option maxRecDepth 400000

/-! ### Python string primitives -/

/-- Python `\w` character class (ASCII view): letters, digits, underscore. -/
def isPyWordChar (c : Char) : Bool :=
  c.isAlphanum || c = '_'

/-- Python `str.lower` (character-wise). -/
def pyLower (s : String) : String :=
  String.mk (s.toList.map Char.toLower)

/-- Helper of `pySplitWS`: splits a character list on whitespace, dropping
empty chunks; `acc` holds the current in-progress word reversed. -/
def splitWSAux : List Char → List Char → List (List Char)
  | [], [] => []
  | [], acc => [acc.reverse]
  | c :: cs, acc =>
    if c.isWhitespace then
      if acc.isEmpty then splitWSAux cs [] else acc.reverse :: splitWSAux cs []
    else splitWSAux cs (c :: acc)

/-- Python `str.split()` with no argument: split on runs of whitespace,
no empty words. -/
def pySplitWS (s : String) : List String :=
  (splitWSAux s.toList []).map String.mk

/-- Python truthiness of an optional string: `None` and `""` are falsy. -/
def pyTruthy : Option String → Bool
  | none => false
  | some s => s ≠ ""

/-- Helper of `pyReplace`: replace every non-overlapping occurrence of the
nonempty pattern `pat` by `repl`, scanning left to right.  The fuel
argument (instantiated with the list length, which bounds the recursion
depth) keeps the recursion structural. -/
def replaceFuel (pat repl : List Char) : Nat → List Char → List Char
  | 0, l => l
  | _ + 1, [] => []
  | fuel + 1, c :: cs =>
    if pat.isPrefixOf (c :: cs) then
      repl ++ replaceFuel pat repl fuel (List.drop (pat.length - 1) cs)
    else c :: replaceFuel pat repl fuel cs

/-- Python `str.replace` for a nonempty pattern (the only uses replace
`"/"` and `" "`). -/
def pyReplace (s pat repl : String) : String :=
  if pat = "" then s
  else String.mk (replaceFuel pat.toList repl.toList s.toList.length s.toList)

/-- Python `str.strip()`: drop leading and trailing whitespace. -/
def pyStrip (s : String) : String :=
  String.mk (((s.toList.dropWhile Char.isWhitespace).reverse.dropWhile
    Char.isWhitespace).reverse)

/-- Python `a or b or ""` for two optional strings. -/
def pyOrStr (a b : Option String) : String :=
  if pyTruthy a then a.getD "" else if pyTruthy b then b.getD "" else ""

/-- Python `str(n)` for an optional int with truthiness (`0` and `None`
are falsy), returning `alt` in the falsy case. -/
def pyYearStr (year : Option Int) (alt : String) : String :=
  match year with
  | some y => if y ≠ 0 then toString y else alt
  | none => alt

/-! ### Title normalization and fuzzy matching
(`PaperRetriever._normalize_title`, `_titles_match`,
`_find_best_title_match` in retriever.py) -/

/-- `PaperRetriever._normalize_title`: lowercase, delete characters that are
neither word characters nor whitespace, collapse whitespace to single
spaces. -/
def normalize_title (title : String) : String :=
  let lowered := pyLower title
  let stripped := String.mk (lowered.toList.filter fun c => isPyWordChar c || c.isWhitespace)
  String.intercalate " " (pySplitWS stripped)

/-- The set of words of a normalized title, as used by `_titles_match` and
`_find_best_title_match` (`set(normalized.split())`). -/
def wordSet (title : String) : Finset String :=
  (pySplitWS (normalize_title title)).toFinset

/-- Jaccard similarity of two word sets as computed by the code:
`common / total if total > 0 else 0`.  Exact rational division is written
`mkRat common total`, which equals `common / total` for `total ≠ 0` and `0`
for `total = 0` (see `jaccard_eq_div`). -/
def jaccard (w1 w2 : Finset String) : ℚ :=
  let total := (w1 ∪ w2).card
  if total = 0 then 0 else mkRat ((w1 ∩ w2).card : Int) total

/-- `PaperRetriever._titles_match`: empty word sets never match; otherwise
accept at Jaccard similarity at least 0.6. -/
def titles_match (title1 title2 : String) : Bool :=
  let words1 := wordSet title1
  let words2 := wordSet title2
  if words1.card = 0 ∨ words2.card = 0 then false
  else
    let total := (words1 ∪ words2).card
    if total = 0 then false
    else decide (mkRat 3 5 ≤ mkRat ((words1 ∩ words2).card : Int) total)

/-- A CrossRef author object, restricted to the fields the embedded code
reads (`given`, `family`). -/
structure CrossrefAuthor where
  given : Option String := none
  family : Option String := none
  deriving DecidableEq, Repr

/-- A CrossRef work object, restricted to the fields the embedded code
reads.  `publishedDateParts` is `work["published"]["date-parts"]` with the
code default `[[]]` represented by the empty outer list handling below. -/
structure CrossrefWork where
  title : List String := []
  author : List CrossrefAuthor := []
  publishedDateParts : List (List Int) := [[]]
  doi : Option String := none
  containerTitle : List String := []
  publisher : Option String := none
  ptype : Option String := none
  deriving DecidableEq, Repr

/-- Similarity score of the query title against one candidate title inside
`_find_best_title_match` (same formula as `jaccard` over the two word
sets). -/
def titleScore (queryTitle candidateTitle : String) : ℚ :=
  jaccard (wordSet queryTitle) (wordSet candidateTitle)

/-- Best score over the titled candidates of a result list, starting from a
floor `s`; specification value for the `bestLoop` accumulator. -/
def maxScore (queryTitle : String) (results : List CrossrefWork) (s : ℚ) : ℚ :=
  results.foldl
    (fun acc w => match w.title.head? with
      | none => acc
      | some t => max acc (titleScore queryTitle t)) s

/-- Loop of `PaperRetriever._find_best_title_match`: fold over the result
list keeping the best strictly-improving score; candidates without a title
are skipped. -/
def bestLoop (queryTitle : String) :
    List CrossrefWork → Option CrossrefWork × ℚ → Option CrossrefWork × ℚ
  | [], acc => acc
  | w :: rest, (best, bestScore) =>
    match w.title.head? with
    | none => bestLoop queryTitle rest (best, bestScore)
    | some t =>
      let score := titleScore queryTitle t
      if bestScore < score then bestLoop queryTitle rest (some w, score)
      else bestLoop queryTitle rest (best, bestScore)

/-- `PaperRetriever._find_best_title_match`: best candidate by score,
returned only when the best score reaches 0.5. -/
def find_best_title_match (queryTitle : String) (results : List CrossrefWork) :
    Option CrossrefWork :=
  let (best, bestScore) := bestLoop queryTitle results (none, 0)
  if mkRat 1 2 ≤ bestScore then best else none

/-! ### Paper metadata and BibTeX keys
(`Author`, `PaperMetadata` in ingestor/extractors/paper/metadata.py) -/

/-- `Author` dataclass (the `orcid` and `affiliations` fields, unread by the
embedded properties, are omitted). -/
structure Author where
  name : String
  given : Option String := none
  family : Option String := none
  deriving DecidableEq, Repr

/-- `PaperMetadata` dataclass, restricted to the fields read by
`first_author_last_name` and `bibtex_key`; the remaining optional fields of
the dataclass do not influence those properties. -/
structure PaperMetadata where
  title : String
  authors : List Author := []
  year : Option Int := none
  deriving DecidableEq, Repr

/-- Python `re.sub(r"[^\w]", "", s)`. -/
def stripNonWord (s : String) : String :=
  String.mk (s.toList.filter isPyWordChar)

/-- Last word of a full author name, `"Unknown"` when there is none
(`parts[-1] if parts else "Unknown"`). -/
def lastNameFromFullName (name : String) : String :=
  match (pySplitWS name).getLast? with
  | some w => w
  | none => "Unknown"

/-- `PaperMetadata.first_author_last_name`. -/
def first_author_last_name (m : PaperMetadata) : String :=
  match m.authors with
  | [] => "Unknown"
  | a :: _ =>
    match a.family with
    | some f => if f ≠ "" then f else lastNameFromFullName a.name
    | none => lastNameFromFullName a.name

/-- The article/preposition skip list of `bibtex_key`. -/
def skip_words : List String := ["a", "an", "the", "on", "in", "of", "for", "to"]

/-- First-significant-word loop of `bibtex_key`: first word whose cleaned
form is nonempty and not in the skip list; `""` when no word qualifies
(the loop variable is initialized to `""`). -/
def firstSignificantWord : List String → String
  | [] => ""
  | w :: ws =>
    let clean := stripNonWord w
    if clean ≠ "" ∧ clean ∉ skip_words then clean else firstSignificantWord ws

/-- `PaperMetadata.bibtex_key`:
lowercased, punctuation-stripped first-author last name, then the year
(`"0000"` when absent or `0`), then the first significant title word
(`"paper"` for an empty title). -/
def bibtex_key (m : PaperMetadata) : String :=
  let last_name := stripNonWord (pyLower (first_author_last_name m))
  let year := pyYearStr m.year "0000"
  let first_word :=
    if m.title ≠ "" then firstSignificantWord (pySplitWS (pyLower m.title))
    else "paper"
  last_name ++ year ++ first_word

/-! ### The retrieval orchestrator (`PaperRetriever` in retriever.py)

Network and filesystem effects are recorded as `Event` values.  The
external client modules are not part of the embedded sources; per the spec,
each client call is an HTTP call, recorded as `netCall`. -/

/-- Observable effect of the orchestrator, in program order. -/
inductive Event where
  | mkdirCall (dir : String)
  | rateWait (source : String)
  | netCall (source : String)
  | sourceResult (source : String) (ok : Bool) (reason : String)
  | fsWrite (path : String)
  deriving DecidableEq, Repr

/-- The source name an event refers to, if any. -/
def eventSrc : Event → Option String
  | .rateWait s => some s
  | .netCall s => some s
  | .sourceResult s _ _ => some s
  | .mkdirCall _ => none
  | .fsWrite _ => none

/-- `RetrievalStatus` enum (`FAILED` is declared in the code as an alias of
`NOT_FOUND` for CLI compatibility). -/
inductive RetrievalStatus where
  | success
  | not_found
  | error
  | skipped
  | failed
  deriving DecidableEq, Repr

/-- An author entry of the metadata dict built by
`_extract_crossref_metadata`. -/
structure MetaAuthor where
  name : String
  given : Option String := none
  family : Option String := none
  deriving DecidableEq, Repr

/-- The metadata dict circulating inside `PaperRetriever` (keys produced by
`_extract_crossref_metadata`; a missing key and a key mapped to `None` are
both `none`). -/
structure RMeta where
  doi : Option String := none
  title : Option String := none
  authors : List MetaAuthor := []
  year : Option Int := none
  venue : Option String := none
  publisher : Option String := none
  ptype : Option String := none
  deriving DecidableEq, Repr

/-- The degraded metadata dict `{"doi": doi, "title": title}`. -/
def degradedMeta (doi title : Option String) : RMeta :=
  { doi := doi, title := title }

/-- `RetrievalResult` dataclass. -/
structure RetrievalResult where
  doi : Option String
  title : String
  status : RetrievalStatus
  source : Option String := none
  pdf_path : Option String := none
  error : Option String := none
  metadata : Option RMeta := none
  attempts : Option (List (String × String)) := none
  deriving DecidableEq, Repr

/-- `PaperRetriever._extract_crossref_metadata`. -/
def extract_crossref_metadata (work : CrossrefWork) : RMeta :=
  let title := work.title.head?
  let authors := work.author.filterMap fun a =>
    let name := pyStrip ((a.given.getD "") ++ " " ++ (a.family.getD ""))
    if name ≠ "" then some { name := name, given := a.given, family := a.family }
    else none
  let year : Option Int :=
    match work.publishedDateParts.head? with
    | some (y :: _) => some y
    | _ => none
  { doi := work.doi, title := title, authors := authors, year := year,
    venue := work.containerTitle.head?, publisher := work.publisher,
    ptype := work.ptype }

/-- Response of `CrossRefClient.get_work`: may raise (transport error),
return a falsy value (miss) or return a work object. -/
inductive WorkResp where
  | raised (msg : String)
  | missing
  | found (work : CrossrefWork)
  deriving DecidableEq, Repr

/-- Response of `CrossRefClient.search_title`: may raise or return a result
list (an empty list is falsy). -/
inductive SearchResp where
  | raised (msg : String)
  | results (works : List CrossrefWork)
  deriving DecidableEq, Repr

/-- Modelled from the spec: the CrossRef client module is not among the
embedded sources; its two lookups are abstracted as response functions, and
every consultation is an HTTP call recorded by the caller as a `netCall`. -/
structure CrossrefOracle where
  getWork : String → WorkResp
  searchTitle : String → SearchResp

/-- Modelled from the spec: the configuration module is not among the
embedded sources.  This snapshot carries the accessors the orchestrator
reads: `is_source_enabled` is membership in `enabledSources`,
`is_unofficial_enabled` is the `unofficial.disclaimer_accepted` flag
(`unofficialAccepted`), `get_sorted_sources` is `sortedSources` (priority
order), and the `download` section supplies `skipExisting`, `outputDir`
and `maxTitleLength`. -/
structure Config where
  email : Option String := none
  skipExisting : Bool := false
  unofficialAccepted : Bool := false
  institutionalEnabled : Bool := false
  sortedSources : List String := []
  enabledSources : List String := []
  outputDir : String := "./downloads"
  maxTitleLength : Nat := 50

/-- `Config.is_source_enabled`. -/
def Config.isSourceEnabled (cfg : Config) (s : String) : Bool :=
  cfg.enabledSources.contains s

/-- `PaperRetriever._init_clients`: the names of the constructed clients.
The always-present base clients, then `unpaywall` (requires an email),
`institutional` and `web_search` when configured, and the unofficial
clients only behind the disclaimer gate. -/
def init_clients (cfg : Config) : List String :=
  ["arxiv", "crossref", "semantic_scholar", "pmc", "biorxiv", "openalex"]
    ++ (if pyTruthy cfg.email then ["unpaywall"] else [])
    ++ (if cfg.institutionalEnabled then ["institutional"] else [])
    ++ (if cfg.isSourceEnabled "web_search" then ["web_search"] else [])
    ++ (if cfg.unofficialAccepted then
          (if cfg.isSourceEnabled "scihub" then ["scihub"] else [])
            ++ (if cfg.isSourceEnabled "libgen" then ["libgen"] else [])
        else [])

/-- `PaperRetriever._resolve_metadata`.  Both lookup blocks catch every
exception (`except Exception: pass`); the final statement returns the
degraded dict. -/
def resolve_metadata (clients : List String) (co : CrossrefOracle)
    (doi title : Option String) : Option RMeta × List Event :=
  if ¬ clients.contains "crossref" then (some (degradedMeta doi title), [])
  else
    let step1 : Option RMeta × List Event :=
      if pyTruthy doi then
        match co.getWork (doi.getD "") with
        | .raised _ => (none, [.rateWait "crossref", .netCall "crossref"])
        | .missing => (none, [.rateWait "crossref", .netCall "crossref"])
        | .found w =>
          (some (extract_crossref_metadata w), [.rateWait "crossref", .netCall "crossref"])
      else (none, [])
    match step1.1 with
    | some m => (some m, step1.2)
    | none =>
      let step2 : Option RMeta × List Event :=
        if pyTruthy title then
          match co.searchTitle (title.getD "") with
          | .raised _ => (none, [.rateWait "crossref", .netCall "crossref"])
          | .results rs =>
            if rs ≠ [] then
              match find_best_title_match (title.getD "") rs with
              | some w =>
                (some (extract_crossref_metadata w),
                 [.rateWait "crossref", .netCall "crossref"])
              | none => (none, [.rateWait "crossref", .netCall "crossref"])
            else (none, [.rateWait "crossref", .netCall "crossref"])
        else (none, [])
      match step2.1 with
      | some m => (some m, step1.2 ++ step2.2)
      | none => (some (degradedMeta doi title), step1.2 ++ step2.2)

/-- `PaperRetriever._get_output_path`.  The Python expression
`authors[0].get("name", "").split()[-1]` raises `IndexError` on a wordless
name; that path is unreachable from `retrieve` (extracted author names are
nonempty) and is rendered here with default `""`. -/
def get_output_path (cfg : Config) (m : RMeta) (outputDir : String) : String :=
  let first_author : String :=
    match m.authors with
    | [] => ""
    | a :: _ =>
      if (a.family.getD "") ≠ "" then a.family.getD ""
      else ((pySplitWS a.name).getLast?).getD ""
  let year := pyYearStr m.year ""
  let title := m.title.getD ""
  let title_short :=
    pyStrip ((String.mk (title.toList.filter fun c =>
        isPyWordChar c || c.isWhitespace || c = '-')).take cfg.maxTitleLength)
  let parts := [first_author, year, title_short].filter (· ≠ "")
  let filename :=
    if parts ≠ [] then pyReplace (String.intercalate "_" parts) " " "_" ++ ".pdf"
    else if pyTruthy m.doi then pyReplace (m.doi.getD "") "/" "_" ++ ".pdf"
    else "paper.pdf"
  outputDir ++ "/" ++ filename

/-- Outcome of dispatching one configured source client inside
`_try_source`: the per-source helper found and downloaded a verified PDF
(`ok`), returned a miss reason, or raised. -/
inductive SourceOutcome where
  | ok
  | miss (reason : String)
  | raised (msg : String)
  deriving DecidableEq, Repr

/-- The source names `_try_source` dispatches on; any other name falls
through to `return None, "unknown source"`. -/
def knownSources : List String :=
  ["unpaywall", "arxiv", "pmc", "biorxiv", "semantic_scholar", "openalex",
   "institutional", "web_search", "scihub", "libgen"]

/-- `PaperRetriever._try_source`: unconfigured client short-circuits; the
dispatched helper runs inside `try`, so a raised exception becomes the
failure reason `"error: {e}"`; an unknown name returns without dispatch. -/
def try_source (clients : List String) (oracle : String → SourceOutcome)
    (source : String) (doi : Option String) (title : String)
    (outputPath : String) : Option RetrievalResult × String × List Event :=
  if ¬ clients.contains source then (none, "client not configured", [])
  else if ¬ knownSources.contains source then (none, "unknown source", [])
  else
    match oracle source with
    | .ok =>
      (some { doi := doi, title := title, status := .success,
              source := some source, pdf_path := some outputPath },
       "downloaded", [.netCall source])
    | .miss r => (none, r, [.netCall source])
    | .raised m => (none, "error: " ++ m, [.netCall source])

/-- The source loop of `PaperRetriever.retrieve` (lines 188-217): skip
disabled sources, skip unofficial sources when the disclaimer flag is off,
otherwise rate-limit-wait, dispatch, and stop at the first result with
status SUCCESS. -/
def source_loop (cfg : Config) (clients : List String)
    (oracle : String → SourceOutcome) (doi : Option String) (title : String)
    (outputPath : String) : List String → Option RetrievalResult × List Event
  | [] => (none, [])
  | s :: rest =>
    if ¬ cfg.isSourceEnabled s then
      source_loop cfg clients oracle doi title outputPath rest
    else if (s = "scihub" ∨ s = "libgen") ∧ ¬ cfg.unofficialAccepted then
      source_loop cfg clients oracle doi title outputPath rest
    else
      let t3 := try_source clients oracle s doi title outputPath
      match t3.1 with
      | some r =>
        if r.status = .success then
          (some r, Event.rateWait s :: t3.2.2 ++ [Event.sourceResult s true t3.2.1])
        else
          let rec2 := source_loop cfg clients oracle doi title outputPath rest
          (rec2.1, Event.rateWait s :: t3.2.2 ++ [Event.sourceResult s false t3.2.1] ++ rec2.2)
      | none =>
        let rec2 := source_loop cfg clients oracle doi title outputPath rest
        (rec2.1, Event.rateWait s :: t3.2.2 ++ [Event.sourceResult s false t3.2.1] ++ rec2.2)

/-- `PaperRetriever.retrieve`, with the filesystem snapshot `world` (the
paths that exist) and the client oracles as explicit inputs. -/
def retrieve (cfg : Config) (world : List String) (co : CrossrefOracle)
    (oracle : String → SourceOutcome) (doi title : Option String)
    (outputDir : Option String) : RetrievalResult × List Event :=
  if ¬ pyTruthy doi ∧ ¬ pyTruthy title then
    ({ doi := none, title := "", status := .error,
       error := some "Must provide DOI or title" }, [])
  else
    let clients := init_clients cfg
    let out_dir := outputDir.getD cfg.outputDir
    let e0 : List Event := [.mkdirCall out_dir]
    let mres := resolve_metadata clients co doi title
    let metadata := mres.1
    let resolved_doi := match metadata with | some m => m.doi | none => doi
    let resolved_title := match metadata with | some m => m.title | none => title
    let output_path := get_output_path cfg (metadata.getD (degradedMeta doi title)) out_dir
    if cfg.skipExisting ∧ world.contains output_path then
      ({ doi := resolved_doi, title := pyOrStr resolved_title none,
         status := .skipped, source := some "cached",
         pdf_path := some output_path, metadata := metadata }, e0 ++ mres.2)
    else
      let lres :=
        source_loop cfg clients oracle resolved_doi (pyOrStr resolved_title title)
          output_path cfg.sortedSources
      match lres.1 with
      | some r => ({ r with metadata := metadata }, e0 ++ mres.2 ++ lres.2)
      | none =>
        ({ doi := resolved_doi, title := pyOrStr resolved_title title,
           status := .not_found, error := some "PDF not found in any source",
           metadata := metadata }, e0 ++ mres.2 ++ lres.2)

/-- An HTTP response as read by `_download_pdf` (status after redirects,
`content-type` header with default `""`, body bytes). -/
structure HttpResponse where
  status : Nat := 200
  contentType : String := ""
  body : List UInt8 := []
  deriving DecidableEq, Repr

/-- The bytes of `b"%PDF"`. -/
def pdfMagic : List UInt8 := [0x25, 0x50, 0x44, 0x46]

/-- `PaperRetriever._download_pdf`.  A transport exception (`Except.error`)
and a non-2xx status (`raise_for_status`) are caught by the surrounding
`except` and yield `False`; a body that neither has a `pdf` content-type
nor starts with `%PDF` is rejected before any write; otherwise the body is
written to the output path (the parent-directory `mkdir` is elided) and
the call returns `True`. -/
def download_pdf (resp : Except String HttpResponse) (outputPath : String) :
    Bool × List Event :=
  match resp with
  | .error _ => (false, [])
  | .ok r =>
    if 400 ≤ r.status then (false, [])
    else if ¬ ("pdf".toList <:+: (pyLower r.contentType).toList)
            ∧ ¬ (pdfMagic <+: r.body) then
      (false, [])
    else (true, [.fsWrite outputPath])

/-- One entry of the `papers` list of `retrieve_batch`
(`paper.get("doi")`, `paper.get("title", "")`). -/
structure Paper where
  doi : Option String := none
  title : String := ""
  deriving DecidableEq, Repr

/-- What `retrieve_batch` did for one paper: its identifier
(`doi or title`), whether it was skipped as already completed, the
retrieval result, and the progress-file contents written right after the
item (`none` when no write happened). -/
structure BatchItem where
  identifier : String
  alreadyDone : Bool
  result : RetrievalResult
  wrote : Option (List String)
  deriving DecidableEq, Repr

/-- The sequential (`max_concurrent = 1`) per-paper loop of
`retrieve_batch`, threading the `completed` set (modelled as a
duplicate-free list). -/
def batch_loop (cfg : Config) (world : List String) (co : CrossrefOracle)
    (oracle : String → SourceOutcome) (saveProgress : Bool) (outDir : String) :
    List Paper → List String → List BatchItem
  | [], _ => []
  | p :: rest, completed =>
    let identifier := pyOrStr p.doi (some p.title)
    if completed.contains identifier then
      { identifier := identifier, alreadyDone := true,
        result := { doi := p.doi, title := pyOrStr (some p.title) none,
                    status := .skipped, pdf_path := none },
        wrote := none }
        :: batch_loop cfg world co oracle saveProgress outDir rest completed
    else
      let r := (retrieve cfg world co oracle p.doi (some p.title) (some outDir)).1
      if saveProgress ∧ (r.status = .success ∨ r.status = .skipped) then
        let completed2 :=
          if completed.contains identifier then completed
          else completed ++ [identifier]
        { identifier := identifier, alreadyDone := false, result := r,
          wrote := some completed2 }
          :: batch_loop cfg world co oracle saveProgress outDir rest completed2
      else
        { identifier := identifier, alreadyDone := false, result := r,
          wrote := none }
          :: batch_loop cfg world co oracle saveProgress outDir rest completed

/-- `PaperRetriever.retrieve_batch` on its sequential path
(`max_concurrent = 1`, the default).  `progressFile` is the parsed content
of the progress file (`none` when absent or unreadable); downloads do not
feed back into `world`, which is the fixed set of pre-existing files. -/
def retrieve_batch (cfg : Config) (world : List String) (co : CrossrefOracle)
    (oracle : String → SourceOutcome) (papers : List Paper)
    (saveProgress : Bool) (outputDir : Option String)
    (progressFile : Option (List String)) : List BatchItem :=
  let outDir := outputDir.getD cfg.outputDir
  let completed := if saveProgress then progressFile.getD [] else []
  batch_loop cfg world co oracle saveProgress outDir papers completed

/-- Pointwise update of a source oracle: source `s` now behaves as `out`.
Used to compare a run in which one source raises with the run in which it
reports the corresponding failure reason. -/
def updOracle (o : String → SourceOutcome) (s : String) (out : SourceOutcome) :
    String → SourceOutcome :=
  fun s2 => if s2 = s then out else o s2

/-! ### Concrete fixtures used by witnesses and counterexamples -/

/-- A small configuration: skip-existing on, one enabled source, no
unofficial disclaimer. -/
def exCfg : Config :=
  { skipExisting := true, sortedSources := ["arxiv"], enabledSources := ["arxiv"] }

/-- A CrossRef oracle whose lookups always miss. -/
def exCoMiss : CrossrefOracle :=
  ⟨fun _ => .missing, fun _ => .results []⟩

/-- A source oracle that always misses. -/
def exOracleMiss : String → SourceOutcome :=
  fun _ => .miss "no OA version found"

/-- A source oracle that always succeeds. -/
def exOracleOk : String → SourceOutcome :=
  fun _ => .ok

/-! ### Helper lemmas -/

/-- `jaccard` is the usual intersection-over-union ratio. -/
theorem jaccard_eq_div (w1 w2 : Finset String) :
    jaccard w1 w2 = ((w1 ∩ w2).card : ℚ) / ((w1 ∪ w2).card : ℚ) := by
  show (if (w1 ∪ w2).card = 0 then (0:ℚ) else mkRat ((w1 ∩ w2).card : Int) (w1 ∪ w2).card) = _
  by_cases h : (w1 ∪ w2).card = 0
  · rw [if_pos h, h, Nat.cast_zero, div_zero]
  · rw [if_neg h, Rat.mkRat_eq_div, Int.cast_natCast]

/-- Rewriting the 0.6 threshold to its `mkRat` form. -/
theorem threeFifths_eq_mkRat : (3 : ℚ) / 5 = mkRat 3 5 := by
  rw [Rat.mkRat_eq_div]; norm_num

/-- Rewriting the 0.5 threshold to its `mkRat` form. -/
theorem oneHalf_eq_mkRat : (1 : ℚ) / 2 = mkRat 1 2 := by
  rw [Rat.mkRat_eq_div]; norm_num

/-- The only result `_try_source` can return is the success result for the
dispatched source, with the `attempts` field left at its `None` default. -/
theorem try_source_some (clients : List String) (oracle : String → SourceOutcome)
    (s : String) (d : Option String) (t p : String) (r : RetrievalResult) :
    (try_source clients oracle s d t p).1 = some r →
    r = { doi := d, title := t, status := .success,
          source := some s, pdf_path := some p } := by
  intro h
  rw [try_source] at h
  split at h
  · simp at h
  · split at h
    · simp at h
    · split at h
      · simp only at h
        cases h
        rfl
      · simp at h
      · simp at h

/-- A result returned by the source loop is a success result and carries no
`attempts` list (the loop only forwards `_try_source` success results,
whose `attempts` field keeps its `None` default). -/
theorem source_loop_some_spec (cfg : Config) (clients : List String)
    (oracle : String → SourceOutcome) (d : Option String) (t p : String) :
    ∀ (srcs : List String) (r : RetrievalResult),
      (source_loop cfg clients oracle d t p srcs).1 = some r →
      r.status = .success ∧ r.attempts = none := by
  intro srcs
  induction srcs with
  | nil => intro r h; simp [source_loop] at h
  | cons s rest ih =>
    intro r h
    rw [source_loop] at h
    split at h
    · exact ih r h
    · split at h
      · exact ih r h
      · simp only at h
        rcases h3 : (try_source clients oracle s d t p).1 with _ | r2
        · rw [h3] at h
          simp only at h
          exact ih r h
        · rw [h3] at h
          simp only at h
          split at h
          · rename_i hsucc
            have hr := try_source_some clients oracle s d t p r2 h3
            subst hr
            simp only at h
            cases h
            exact ⟨hsucc, rfl⟩
          · simp only at h
            exact ih r h

/-! ### Claim theorems -/

/-- C5: `_download_pdf` returns true only for a response whose content-type
contains `pdf` or whose body starts with the `%PDF` magic bytes; a
downloaded response satisfying neither is rejected with no write, and a
verified response (2xx/3xx status) is written to the output path and
accepted. -/
theorem C5_download_pdf_verification_gate :
    (∀ (resp : Except String HttpResponse) (path : String),
        (download_pdf resp path).1 = true →
        ∃ r, resp = Except.ok r ∧
          ("pdf".toList <:+: (pyLower r.contentType).toList ∨ pdfMagic <+: r.body)) ∧
    (∀ (r : HttpResponse) (path : String),
        ¬ ("pdf".toList <:+: (pyLower r.contentType).toList) →
        ¬ (pdfMagic <+: r.body) →
        download_pdf (Except.ok r) path = (false, [])) ∧
    (∀ (r : HttpResponse) (path : String),
        r.status < 400 →
        ("pdf".toList <:+: (pyLower r.contentType).toList ∨ pdfMagic <+: r.body) →
        download_pdf (Except.ok r) path = (true, [Event.fsWrite path])) := by
  refine ⟨?_, ?_, ?_⟩
  · intro resp path h
    match resp with
    | .error e => simp [download_pdf] at h
    | .ok r =>
      refine ⟨r, rfl, ?_⟩
      rw [download_pdf] at h
      split at h
      · simp at h
      · split at h
        · simp at h
        · rename_i hgate
          rw [not_and_or, not_not, not_not] at hgate
          exact hgate
  · intro r path h1 h2
    rw [download_pdf]
    split
    · rfl
    · rw [if_pos ⟨h1, h2⟩]
  · intro r path hst hok
    rw [download_pdf]
    rw [if_neg (by omega)]
    rw [if_neg (by rw [not_and_or, not_not, not_not]; exact hok)]

/-- C5 witness: an HTML error page (status 200, `text/html`, body
`<html`) is rejected with no write; a response with a `pdf` content-type
is accepted and written. -/
theorem C5_download_pdf_witness :
    download_pdf
      (Except.ok { status := 200, contentType := "text/html",
                   body := [60, 104, 116, 109, 108] }) "out.pdf" = (false, []) ∧
    download_pdf
      (Except.ok { status := 200, contentType := "application/pdf",
                   body := [60, 104] }) "out.pdf" = (true, [Event.fsWrite "out.pdf"]) :=
  ⟨C5_download_pdf_verification_gate.2.1 _ "out.pdf" (by decide) (by decide),
   C5_download_pdf_verification_gate.2.2 _ "out.pdf" (by decide) (Or.inl (by decide))⟩

/-- C9: the BibTeX key is the lowercased, punctuation-stripped first-author
last name, then the year, then the first title word not in the skip list
(punctuation removed); the spec example yields a key containing `doe`,
`2024` and `great` and never `the`. -/
theorem C9_bibtex_key_format :
    (∀ (m : PaperMetadata) (a : Author) (rest : List Author) (f : String) (y : Int),
        m.authors = a :: rest → a.family = some f → f ≠ "" →
        m.year = some y → y ≠ 0 → m.title ≠ "" →
        bibtex_key m =
          stripNonWord (pyLower f) ++ toString y ++
            firstSignificantWord (pySplitWS (pyLower m.title))) ∧
    (bibtex_key { title := "The Great Paper",
                  authors := [{ name := "John Doe", family := some "Doe" }],
                  year := some 2024 } = "doe2024great") ∧
    ("doe".toList <:+: "doe2024great".toList ∧
     "2024".toList <:+: "doe2024great".toList ∧
     "great".toList <:+: "doe2024great".toList ∧
     ¬ ("the".toList <:+: "doe2024great".toList)) := by
  refine ⟨?_, by decide, by decide, by decide, by decide⟩
  intro m a rest f y hauth hfam hf hyear hy htitle
  have hlast : first_author_last_name m = f := by
    rw [first_author_last_name, hauth]
    simp only
    rw [hfam]
    simp only
    exact if_pos hf
  rw [bibtex_key, hlast, hyear]
  rw [pyYearStr]
  rw [if_pos hy, if_pos htitle]

/-- C9 witness: the general format theorem applied to the spec example. -/
theorem C9_bibtex_key_witness :
    bibtex_key { title := "The Great Paper",
                 authors := [{ name := "John Doe", family := some "Doe" }],
                 year := some 2024 } =
      stripNonWord (pyLower "Doe") ++ toString (2024 : Int) ++
        firstSignificantWord (pySplitWS (pyLower "The Great Paper")) :=
  C9_bibtex_key_format.1 _ { name := "John Doe", family := some "Doe" } [] "Doe" 2024
    rfl rfl (by decide) rfl (by decide) (by decide)

/-- C1: the code never populates the `attempts` field: every result of
`retrieve` has `attempts = None`, including a full-exhaustion NOT_FOUND
result (the dataclass documents the field as the history of attempted
sources, and the spec requires one record per source attempt, but no code
path appends to it). -/
theorem C1_attempts_never_populated :
    (∀ (cfg : Config) (world : List String) (co : CrossrefOracle)
        (oracle : String → SourceOutcome) (d t : Option String)
        (od : Option String),
        ((retrieve cfg world co oracle d t od).1).attempts = none) ∧
    ((retrieve exCfg [] exCoMiss exOracleMiss (some "10.1234/x") none none).1.status
        = .not_found ∧
     (retrieve exCfg [] exCoMiss exOracleMiss (some "10.1234/x") none none).1.attempts
        = none) := by
  constructor
  · intro cfg world co oracle d t od
    rw [retrieve]
    split
    · rfl
    · simp only
      split
      · rfl
      · split
        · rename_i r heq
          simp only
          exact (source_loop_some_spec cfg _ oracle _ _ _ _ r heq).2
        · rfl
  · constructor
    · decide
    · decide

/-- C4: with neither a truthy DOI nor a truthy title, `retrieve` returns
the immediate ERROR result (message `"Must provide DOI or title"`) with no
event — no filesystem or network action; with an identifier present the
status is never ERROR, making this the only immediate failure of a call. -/
theorem C4_missing_identifier_immediate_error :
    (∀ (cfg : Config) (world : List String) (co : CrossrefOracle)
        (oracle : String → SourceOutcome) (od : Option String) (d t : Option String),
        pyTruthy d = false → pyTruthy t = false →
        retrieve cfg world co oracle d t od =
          ({ doi := none, title := "", status := .error,
             error := some "Must provide DOI or title" }, [])) ∧
    (∀ (cfg : Config) (world : List String) (co : CrossrefOracle)
        (oracle : String → SourceOutcome) (od : Option String) (d t : Option String),
        pyTruthy d = true ∨ pyTruthy t = true →
        (retrieve cfg world co oracle d t od).1.status ≠ .error) := by
  constructor
  · intro cfg world co oracle od d t hd ht
    rw [retrieve, if_pos]
    simp [hd, ht]
  · intro cfg world co oracle od d t hid
    rw [retrieve]
    rw [if_neg (by rcases hid with h | h <;> simp [h])]
    simp only
    split
    · simp
    · split
      · rename_i r heq
        simp only
        have := (source_loop_some_spec cfg _ oracle _ _ _ _ r heq).1
        simp [this]
      · simp

/-- C4 witness: the ERROR branch at `(none, none)` and a non-ERROR status
with a DOI present. -/
theorem C4_missing_identifier_witness :
    retrieve exCfg [] exCoMiss exOracleMiss none none none =
      ({ doi := none, title := "", status := .error,
         error := some "Must provide DOI or title" }, []) ∧
    (retrieve exCfg [] exCoMiss exOracleMiss (some "10.1234/x") none none).1.status
      ≠ .error :=
  ⟨C4_missing_identifier_immediate_error.1 exCfg [] exCoMiss exOracleMiss none none none
      rfl rfl,
   C4_missing_identifier_immediate_error.2 exCfg [] exCoMiss exOracleMiss none
      (some "10.1234/x") none (Or.inl (by decide))⟩

/-- C10: `_resolve_metadata` is total: it always returns a dict (never
`None`, never an uncaught exception); with no CrossRef client, or when
every lookup misses or raises, it returns the degraded dict
`{"doi": doi, "title": title}`. -/
theorem C10_resolve_metadata_total :
    (∀ (clients : List String) (co : CrossrefOracle) (d t : Option String),
        ((resolve_metadata clients co d t).1).isSome = true) ∧
    (∀ (clients : List String) (co : CrossrefOracle) (d t : Option String),
        clients.contains "crossref" = false →
        resolve_metadata clients co d t = (some (degradedMeta d t), [])) ∧
    (∀ (clients : List String) (co : CrossrefOracle) (d t : Option String),
        (∀ w, co.getWork (d.getD "") ≠ .found w) →
        (∀ rs, co.searchTitle (t.getD "") = .results rs →
            rs = [] ∨ find_best_title_match (t.getD "") rs = none) →
        (resolve_metadata clients co d t).1 = some (degradedMeta d t)) := by
  refine ⟨?_, ?_, ?_⟩
  · intro clients co d t
    rw [resolve_metadata]
    split
    · rfl
    · simp only
      split
      · rfl
      · split
        · rfl
        · rfl
  · intro clients co d t h
    rw [resolve_metadata, if_pos]
    simpa using h
  · intro clients co d t hwork hsearch
    rw [resolve_metadata]
    split
    · rfl
    · simp only
      split
      · rename_i m heq
        exfalso
        split at heq
        · split at heq
          · simp at heq
          · simp at heq
          · rename_i w hw
            exact hwork w hw
        · simp at heq
      · split
        · rename_i m heq
          exfalso
          split at heq
          · split at heq
            · simp at heq
            · rename_i rs hs
              split at heq
              · rename_i hne
                split at heq
                · rename_i w hbest
                  rcases hsearch rs hs with hnil | hb
                  · exact hne hnil
                  · rw [hb] at hbest
                    cases hbest
                · simp at heq
              · simp at heq
          · simp at heq
        · rfl

/-- C10 witness: the total-fallback theorem applied to an always-missing
CrossRef oracle, and the absent-client branch. -/
theorem C10_resolve_metadata_witness :
    ((resolve_metadata ["crossref"] exCoMiss (some "10.1/x") (some "A Title")).1
      = some (degradedMeta (some "10.1/x") (some "A Title"))) ∧
    (resolve_metadata [] exCoMiss (some "10.1/x") none
      = (some (degradedMeta (some "10.1/x") none), [])) :=
  ⟨C10_resolve_metadata_total.2.2 ["crossref"] exCoMiss (some "10.1/x") (some "A Title")
      (fun _ h => nomatch h)
      (fun rs h => Or.inl (by cases h; rfl)),
   C10_resolve_metadata_total.2.1 [] exCoMiss (some "10.1/x") none (by decide)⟩

/-- Every event `_resolve_metadata` emits is a CrossRef rate-limiter wait
or a CrossRef HTTP call. -/
theorem resolve_metadata_events (clients : List String) (co : CrossrefOracle)
    (d t : Option String) :
    ∀ e ∈ (resolve_metadata clients co d t).2,
      e = Event.rateWait "crossref" ∨ e = Event.netCall "crossref" := by
  intro e he
  rw [resolve_metadata] at he
  repeat' split at he
  all_goals simp at he
  all_goals tauto

/-- C2 counterexample: with `skip_existing` on and the output file already
on disk, the call does return SKIPPED with source `"cached"`, but a
CrossRef network call has already been made during metadata resolution —
the claimed "zero network calls" is violated. -/
theorem C2_counterexample_metadata_network_call :
    (retrieve exCfg ["./downloads/10.1_x.pdf"] exCoMiss exOracleMiss
        (some "10.1/x") none none).1.status = .skipped ∧
    (retrieve exCfg ["./downloads/10.1_x.pdf"] exCoMiss exOracleMiss
        (some "10.1/x") none none).1.source = some "cached" ∧
    Event.netCall "crossref" ∈
      (retrieve exCfg ["./downloads/10.1_x.pdf"] exCoMiss exOracleMiss
        (some "10.1/x") none none).2 :=
  ⟨by decide, by decide, by decide⟩

/-- C2 (amended): with `skip_existing` configured and the computed output
path already on disk, `retrieve` returns SKIPPED with source `"cached"`,
and no source is attempted: every emitted event is the output-directory
mkdir or CrossRef metadata-resolution traffic (in particular no rate wait,
dispatch or attempt record for any PDF source). -/
theorem C2_skip_existing_no_source_attempts :
    ∀ (cfg : Config) (world : List String) (co : CrossrefOracle)
      (oracle : String → SourceOutcome) (d t od : Option String),
      (pyTruthy d = true ∨ pyTruthy t = true) →
      cfg.skipExisting = true →
      world.contains
        (get_output_path cfg
          (((resolve_metadata (init_clients cfg) co d t).1).getD (degradedMeta d t))
          (od.getD cfg.outputDir)) = true →
      (retrieve cfg world co oracle d t od).1.status = .skipped ∧
      (retrieve cfg world co oracle d t od).1.source = some "cached" ∧
      ∀ e ∈ (retrieve cfg world co oracle d t od).2,
        e = Event.mkdirCall (od.getD cfg.outputDir) ∨
        e = Event.rateWait "crossref" ∨ e = Event.netCall "crossref" := by
  intro cfg world co oracle d t od hid hskip hex
  rw [retrieve]
  rw [if_neg (by rcases hid with h | h <;> simp [h])]
  simp only
  rw [if_pos ⟨hskip, hex⟩]
  refine ⟨rfl, rfl, ?_⟩
  intro e he
  rcases List.mem_append.mp he with h | h
  · simp at h
    exact Or.inl h
  · exact Or.inr (resolve_metadata_events _ _ _ _ e h)

/-- C2 witness: the amended theorem applied to a cached paper. -/
theorem C2_skip_existing_witness :
    (retrieve exCfg ["./downloads/10.1_x.pdf"] exCoMiss exOracleOk
        (some "10.1/x") none none).1.status = .skipped ∧
    (retrieve exCfg ["./downloads/10.1_x.pdf"] exCoMiss exOracleOk
        (some "10.1/x") none none).1.source = some "cached" ∧
    ∀ e ∈ (retrieve exCfg ["./downloads/10.1_x.pdf"] exCoMiss exOracleOk
        (some "10.1/x") none none).2,
      e = Event.mkdirCall "./downloads" ∨
      e = Event.rateWait "crossref" ∨ e = Event.netCall "crossref" :=
  C2_skip_existing_no_source_attempts exCfg ["./downloads/10.1_x.pdf"] exCoMiss
    exOracleOk (some "10.1/x") none none (Or.inl (by decide)) rfl (by decide)

/-- Every event `_try_source` emits is an HTTP call to the dispatched
source. -/
theorem try_source_events (clients : List String) (oracle : String → SourceOutcome)
    (s : String) (d : Option String) (t p : String) :
    ∀ e ∈ (try_source clients oracle s d t p).2.2, e = Event.netCall s := by
  intro e he
  rw [try_source] at he
  split at he
  · simp at he
  · split at he
    · simp at he
    · split at he <;> simp at he <;> exact he

/-- With the disclaimer flag off, no event of the source loop concerns
`scihub` or `libgen`: the gate skips them before the rate-limiter wait and
the dispatch. -/
theorem source_loop_events_no_unofficial (cfg : Config) (clients : List String)
    (oracle : String → SourceOutcome) (d : Option String) (t p : String)
    (hflag : cfg.unofficialAccepted = false) :
    ∀ (srcs : List String) (e : Event),
      e ∈ (source_loop cfg clients oracle d t p srcs).2 →
      eventSrc e ≠ some "scihub" ∧ eventSrc e ≠ some "libgen" := by
  intro srcs
  induction srcs with
  | nil => intro e he; simp [source_loop] at he
  | cons s rest ih =>
    intro e he
    rw [source_loop] at he
    split at he
    · exact ih e he
    · split at he
      · exact ih e he
      · rename_i hgate
        have hs : s ≠ "scihub" ∧ s ≠ "libgen" := by
          constructor <;> intro hcontra <;> subst hcontra <;>
            exact hgate ⟨by tauto, by simp [hflag]⟩
        simp only at he
        split at he
        · split at he
          · rcases List.mem_cons.mp he with he | he
            · subst he; simpa [eventSrc] using hs
            · rcases List.mem_append.mp he with he | he
              · have := try_source_events clients oracle s d t p e he
                subst this; simpa [eventSrc] using hs
              · simp only [List.mem_singleton] at he
                subst he; simpa [eventSrc] using hs
          · rcases List.mem_cons.mp he with he | he
            · subst he; simpa [eventSrc] using hs
            · rcases List.mem_append.mp he with he | he
              · rcases List.mem_append.mp he with he | he
                · have := try_source_events clients oracle s d t p e he
                  subst this; simpa [eventSrc] using hs
                · simp only [List.mem_singleton] at he
                  subst he; simpa [eventSrc] using hs
              · exact ih e he
        · rcases List.mem_cons.mp he with he | he
          · subst he; simpa [eventSrc] using hs
          · rcases List.mem_append.mp he with he | he
            · rcases List.mem_append.mp he with he | he
              · have := try_source_events clients oracle s d t p e he
                subst this; simpa [eventSrc] using hs
              · simp only [List.mem_singleton] at he
                subst he; simpa [eventSrc] using hs
            · exact ih e he

/-- C7: without the accepted disclaimer flag, the unofficial clients are
never constructed and no retrieval event (rate wait, HTTP call or attempt
record) concerns `scihub` or `libgen`. -/
theorem C7_unofficial_sources_gated :
    ∀ cfg : Config, cfg.unofficialAccepted = false →
      ("scihub" ∉ init_clients cfg ∧ "libgen" ∉ init_clients cfg) ∧
      ∀ (world : List String) (co : CrossrefOracle)
        (oracle : String → SourceOutcome) (d t od : Option String) (e : Event),
        e ∈ (retrieve cfg world co oracle d t od).2 →
        eventSrc e ≠ some "scihub" ∧ eventSrc e ≠ some "libgen" := by
  intro cfg hflag
  constructor
  · constructor <;> intro hmem <;>
      (rw [init_clients] at hmem; simp [hflag] at hmem)
  · intro world co oracle d t od e he
    rw [retrieve] at he
    split at he
    · simp at he
    · simp only at he
      split at he
      · rcases List.mem_append.mp he with h | h
        · simp at h
          subst h
          simp [eventSrc]
        · rcases resolve_metadata_events _ _ _ _ e h with h2 | h2 <;>
            subst h2 <;> simp [eventSrc]
      · split at he
        all_goals
          rcases List.mem_append.mp he with h | h
        all_goals
          first
            | exact source_loop_events_no_unofficial cfg _ oracle _ _ _ hflag _ e h
            | (rcases List.mem_append.mp h with h3 | h3;
               · simp at h3
                 subst h3
                 simp [eventSrc]
               · rcases resolve_metadata_events _ _ _ _ e h3 with h2 | h2 <;>
                   subst h2 <;> simp [eventSrc])

/-- C7 witness: the gate theorem applied to the fixture configuration
(the disclaimer flag is off there). -/
theorem C7_unofficial_sources_witness :
    ("scihub" ∉ init_clients exCfg ∧ "libgen" ∉ init_clients exCfg) ∧
    ∀ (world : List String) (co : CrossrefOracle)
      (oracle : String → SourceOutcome) (d t od : Option String) (e : Event),
      e ∈ (retrieve exCfg world co oracle d t od).2 →
      eventSrc e ≠ some "scihub" ∧ eventSrc e ≠ some "libgen" :=
  C7_unofficial_sources_gated exCfg rfl

/-- A source whose dispatch raises is indistinguishable from one that
reports the failure reason `"error: {e}"`: `_try_source` catches the
exception at the per-source boundary. -/
theorem try_source_raised_eq_miss (clients : List String)
    (o : String → SourceOutcome) (s m : String) :
    ∀ (s2 : String) (d : Option String) (t p : String),
      try_source clients (updOracle o s (.raised m)) s2 d t p =
      try_source clients (updOracle o s (.miss ("error: " ++ m))) s2 d t p := by
  intro s2 d t p
  by_cases h : s2 = s
  · subst h
    simp [try_source, updOracle]
  · simp [try_source, updOracle, h]

/-- The source loop behaves identically when a source raises and when it
misses with the corresponding error reason. -/
theorem source_loop_raised_eq_miss (cfg : Config) (clients : List String)
    (o : String → SourceOutcome) (s m : String) (d : Option String) (t p : String) :
    ∀ srcs : List String,
      source_loop cfg clients (updOracle o s (.raised m)) d t p srcs =
      source_loop cfg clients (updOracle o s (.miss ("error: " ++ m))) d t p srcs := by
  intro srcs
  induction srcs with
  | nil => rfl
  | cons s2 rest ih =>
    rw [source_loop, source_loop]
    rw [try_source_raised_eq_miss clients o s m s2 d t p, ih]

/-- C3: an exception raised by a source client is caught at the per-source
boundary: `_try_source` turns it into the failure record
`(None, "error: {e}")` with the error message, and the whole `retrieve`
run (result and event trace alike) is the same as if that source had
reported a plain miss with that reason — the loop proceeds to the next
source and nothing propagates to the caller. -/
theorem C3_source_exception_isolated :
    (∀ (clients : List String) (o : String → SourceOutcome) (s m : String)
        (d : Option String) (t p : String),
        clients.contains s = true → knownSources.contains s = true →
        try_source clients (updOracle o s (.raised m)) s d t p =
          (none, "error: " ++ m, [Event.netCall s])) ∧
    (∀ (cfg : Config) (world : List String) (co : CrossrefOracle)
        (o : String → SourceOutcome) (s m : String) (d t od : Option String),
        retrieve cfg world co (updOracle o s (.raised m)) d t od =
        retrieve cfg world co (updOracle o s (.miss ("error: " ++ m))) d t od) := by
  constructor
  · intro clients o s m d t p h1 h2
    rw [try_source]
    rw [if_neg (by simpa using h1)]
    rw [if_neg (by simpa using h2)]
    simp [updOracle]
  · intro cfg world co o s m d t od
    simp only [retrieve]
    rw [source_loop_raised_eq_miss cfg (init_clients cfg) o s m]

/-- C3 witness: the per-source boundary theorem at a concrete raising
source. -/
theorem C3_source_exception_witness :
    try_source ["arxiv"] (updOracle exOracleMiss "arxiv" (.raised "boom")) "arxiv"
        (some "10.1/x") "T" "p.pdf" =
      (none, "error: " ++ "boom", [Event.netCall "arxiv"]) :=
  C3_source_exception_isolated.1 ["arxiv"] exOracleMiss "arxiv" "boom"
    (some "10.1/x") "T" "p.pdf" (by decide) (by decide)

/-- C8 counterexample: a paper whose identifier is already in the progress
file yields a result with status SKIPPED, yet the progress file is not
rewritten after that item (`wrote = none`) — so "on every SUCCESS or
SKIPPED result the progress file is rewritten immediately" fails as
stated. -/
theorem C8_counterexample_preskip_no_write :
    (retrieve_batch exCfg [] exCoMiss exOracleMiss [{ doi := some "10.1/x" }]
        true none (some ["10.1/x"])).map (fun it => (it.result.status, it.wrote)) =
      [(RetrievalStatus.skipped, none)] := by
  decide

/-- C8 (amended): with progress saving enabled, for every batch item that
was not skipped as already completed, a SUCCESS or SKIPPED retrieval
result makes the loop add the identifier to the completed set and rewrite
the progress file immediately after that item; items already in the
completed set return SKIPPED without a rewrite. -/
theorem C8_progress_written_immediately :
    ∀ (cfg : Config) (world : List String) (co : CrossrefOracle)
      (oracle : String → SourceOutcome) (outDir : String) (papers : List Paper)
      (completed : List String) (it : BatchItem),
      it ∈ batch_loop cfg world co oracle true outDir papers completed →
      it.alreadyDone = false →
      (it.result.status = .success ∨ it.result.status = .skipped) →
      ∃ c, it.wrote = some c ∧ it.identifier ∈ c := by
  intro cfg world co oracle outDir papers
  induction papers with
  | nil => intro completed it hmem _ _; simp [batch_loop] at hmem
  | cons p rest ih =>
    intro completed it hmem hdone hstat
    rw [batch_loop] at hmem
    split at hmem
    · rcases List.mem_cons.mp hmem with h | h
      · subst h; simp at hdone
      · exact ih completed it h hdone hstat
    · simp only at hmem
      split at hmem
      · rcases List.mem_cons.mp hmem with h | h
        · subst h
          refine ⟨_, rfl, ?_⟩
          exact List.mem_append_right _ (by simp)
        · exact ih _ it h hdone hstat
      · rcases List.mem_cons.mp hmem with h | h
        · subst h
          rename_i hcond
          exact absurd ⟨trivial, hstat⟩ hcond
        · exact ih _ it h hdone hstat

/-- C8 witness: the amended theorem applied to a batch whose single paper
downloads successfully; the progress file is rewritten with its
identifier right after the item. -/
theorem C8_progress_written_witness :
    ∃ c,
      (BatchItem.mk "10.1/y" false
        { doi := some "10.1/y", title := "", status := .success,
          source := some "arxiv", pdf_path := some "./downloads/10.1_y.pdf",
          metadata := some { doi := some "10.1/y", title := some "" } }
        (some ["10.1/y"])).wrote = some c ∧
      (BatchItem.mk "10.1/y" false
        { doi := some "10.1/y", title := "", status := .success,
          source := some "arxiv", pdf_path := some "./downloads/10.1_y.pdf",
          metadata := some { doi := some "10.1/y", title := some "" } }
        (some ["10.1/y"])).identifier ∈ c :=
  C8_progress_written_immediately exCfg [] exCoMiss exOracleOk "./downloads"
    [{ doi := some "10.1/y" }] [] _ (by decide) (by decide) (Or.inl (by decide))

/-- One unfolding step of `maxScore`. -/
theorem maxScore_cons (q : String) (w : CrossrefWork) (rest : List CrossrefWork)
    (s : ℚ) :
    maxScore q (w :: rest) s =
      maxScore q rest
        (match w.title.head? with
          | none => s
          | some t => max s (titleScore q t)) := rfl

/-- The `maxScore` floor never decreases the result. -/
theorem le_maxScore (q : String) :
    ∀ (rs : List CrossrefWork) (s : ℚ), s ≤ maxScore q rs s := by
  intro rs
  induction rs with
  | nil => intro s; exact le_refl s
  | cons w rest ih =>
    intro s
    rw [maxScore_cons]
    rcases hw : w.title.head? with _ | tw
    · exact ih s
    · exact le_trans (le_max_left _ _) (ih _)

/-- Every titled candidate scores at most `maxScore`. -/
theorem titleScore_le_maxScore (q : String) :
    ∀ (rs : List CrossrefWork) (s : ℚ) (w : CrossrefWork) (tw : String),
      w ∈ rs → w.title.head? = some tw → titleScore q tw ≤ maxScore q rs s := by
  intro rs
  induction rs with
  | nil => intro s w tw hmem _; simp at hmem
  | cons v rest ih =>
    intro s w tw hmem hw
    rw [maxScore_cons]
    rcases List.mem_cons.mp hmem with h | h
    · subst h
      rw [hw]
      exact le_trans (le_max_right _ _) (le_maxScore q rest _)
    · exact ih _ w tw h hw

/-- The accumulator of `bestLoop` is the running maximum score. -/
theorem bestLoop_snd (q : String) :
    ∀ (rs : List CrossrefWork) (best : Option CrossrefWork) (s : ℚ),
      (bestLoop q rs (best, s)).2 = maxScore q rs s := by
  intro rs
  induction rs with
  | nil => intro best s; rfl
  | cons w rest ih =>
    intro best s
    rw [bestLoop, maxScore_cons]
    rcases hw : w.title.head? with _ | tw
    · simp only [hw]
      exact ih best s
    · simp only [hw]
      split
      · rw [max_eq_right (le_of_lt (by assumption))]
        exact ih (some w) (titleScore q tw)
      · rw [max_eq_left (not_lt.mp (by assumption))]
        exact ih best s

/-- `bestLoop` either keeps its input pair or returns a titled member of
the list together with its score. -/
theorem bestLoop_fst (q : String) :
    ∀ (rs : List CrossrefWork) (best : Option CrossrefWork) (s : ℚ),
      ((bestLoop q rs (best, s)).1 = best ∧ (bestLoop q rs (best, s)).2 = s) ∨
      (∃ w ∈ rs, ∃ tw, w.title.head? = some tw ∧
        (bestLoop q rs (best, s)).1 = some w ∧
        (bestLoop q rs (best, s)).2 = titleScore q tw) := by
  intro rs
  induction rs with
  | nil => intro best s; exact Or.inl ⟨rfl, rfl⟩
  | cons w rest ih =>
    intro best s
    rw [bestLoop]
    rcases hw : w.title.head? with _ | tw
    · simp only [hw]
      rcases ih best s with h | ⟨w2, hmem, tw2, htw2, h1, h2⟩
      · exact Or.inl h
      · exact Or.inr ⟨w2, List.mem_cons_of_mem _ hmem, tw2, htw2, h1, h2⟩
    · simp only [hw]
      split
      · rcases ih (some w) (titleScore q tw) with ⟨h1, h2⟩ | ⟨w2, hmem, tw2, htw2, h1, h2⟩
        · exact Or.inr ⟨w, List.mem_cons_self _ _, tw, hw, h1, h2⟩
        · exact Or.inr ⟨w2, List.mem_cons_of_mem _ hmem, tw2, htw2, h1, h2⟩
      · rcases ih best s with h | ⟨w2, hmem, tw2, htw2, h1, h2⟩
        · exact Or.inl h
        · exact Or.inr ⟨w2, List.mem_cons_of_mem _ hmem, tw2, htw2, h1, h2⟩

/-- C6: `_titles_match` accepts exactly at Jaccard similarity at least
0.6 of the normalized word sets; `_find_best_title_match` returns a
candidate exactly when a best-scoring titled candidate reaches 0.5, and
returns one of maximal score; identical word sets score 1.0, disjoint
ones 0.0. -/
theorem C6_title_matching_thresholds :
    (∀ t1 t2, titles_match t1 t2 = true ↔
        (3 : ℚ) / 5 ≤ jaccard (wordSet t1) (wordSet t2)) ∧
    (∀ (q : String) (rs : List CrossrefWork) (w : CrossrefWork),
        find_best_title_match q rs = some w →
        w ∈ rs ∧ ∃ tw, w.title.head? = some tw ∧
          (1 : ℚ) / 2 ≤ titleScore q tw ∧
          ∀ (w2 : CrossrefWork) (tw2 : String), w2 ∈ rs →
            w2.title.head? = some tw2 → titleScore q tw2 ≤ titleScore q tw) ∧
    (∀ (q : String) (rs : List CrossrefWork),
        (∃ w ∈ rs, ∃ tw, w.title.head? = some tw ∧ (1 : ℚ) / 2 ≤ titleScore q tw) →
        (find_best_title_match q rs).isSome = true) ∧
    (∀ w : Finset String, w.Nonempty → jaccard w w = 1) ∧
    (∀ w1 w2 : Finset String, Disjoint w1 w2 → jaccard w1 w2 = 0) := by
  refine ⟨?_, ?_, ?_, ?_, ?_⟩
  · intro t1 t2
    simp only [titles_match, jaccard]
    by_cases h : (wordSet t1).card = 0 ∨ (wordSet t2).card = 0
    · rw [if_pos h]
      have hzero :
          (if ((wordSet t1) ∪ (wordSet t2)).card = 0 then (0 : ℚ)
            else mkRat (((wordSet t1) ∩ (wordSet t2)).card : Int)
              ((wordSet t1) ∪ (wordSet t2)).card) = 0 := by
        split
        · rfl
        · have hint : ((wordSet t1) ∩ (wordSet t2)).card = 0 := by
            rw [Finset.card_eq_zero]
            rcases h with h | h
            · rw [Finset.card_eq_zero] at h
              rw [h]
              exact Finset.empty_inter _
            · rw [Finset.card_eq_zero] at h
              rw [h]
              exact Finset.inter_empty _
          rw [hint]
          simp
      rw [hzero]
      simp only [Bool.false_eq_true, false_iff]
      norm_num
    · rw [if_neg h]
      push_neg at h
      have htot : ((wordSet t1) ∪ (wordSet t2)).card ≠ 0 := by
        intro h0
        rw [Finset.card_eq_zero, Finset.union_eq_empty] at h0
        exact h.1 (by rw [h0.1]; rfl)
      rw [if_neg htot, if_neg htot]
      rw [threeFifths_eq_mkRat]
      simp
  · intro q rs w h
    rw [find_best_title_match] at h
    rcases hbl : bestLoop q rs (none, 0) with ⟨b, sc⟩
    rw [hbl] at h
    simp only at h
    split at h
    · rename_i hle
      rcases bestLoop_fst q rs none 0 with ⟨h1, _⟩ | ⟨w2, hmem, tw2, htw2, h1, h2⟩
      · rw [hbl] at h1
        simp only at h1
        subst h1
        simp at h
      · rw [hbl] at h1 h2
        simp only at h1 h2
        rw [h1] at h
        cases h
        refine ⟨hmem, tw2, htw2, ?_, ?_⟩
        · rw [oneHalf_eq_mkRat]
          rw [h2] at hle
          exact hle
        · intro w3 tw3 hmem3 htw3
          have hle3 := titleScore_le_maxScore q rs 0 w3 tw3 hmem3 htw3
          have hsnd := bestLoop_snd q rs none 0
          rw [hbl] at hsnd
          simp only at hsnd
          rw [← hsnd, h2] at hle3
          exact hle3
    · cases h
  · intro q rs hex
    rcases hex with ⟨w, hmem, tw, htw, hhalf⟩
    rw [find_best_title_match]
    rcases hbl : bestLoop q rs (none, 0) with ⟨b, sc⟩
    simp only
    have hsnd := bestLoop_snd q rs none 0
    rw [hbl] at hsnd
    simp only at hsnd
    have hge : mkRat 1 2 ≤ sc := by
      rw [← oneHalf_eq_mkRat, hsnd]
      exact le_trans hhalf (titleScore_le_maxScore q rs 0 w tw hmem htw)
    rw [if_pos hge]
    rcases bestLoop_fst q rs none 0 with ⟨_, h2⟩ | ⟨w2, _, tw2, _, h1, _⟩
    · rw [hbl] at h2
      simp only at h2
      rw [h2] at hge
      exact absurd hge (by decide)
    · rw [hbl] at h1
      simp only at h1
      rw [h1]
      rfl
  · intro w hne
    have hcard : w.card ≠ 0 := Nat.pos_iff_ne_zero.mp (Finset.card_pos.mpr hne)
    simp only [jaccard, Finset.union_self, Finset.inter_self]
    rw [if_neg hcard, Rat.mkRat_eq_div, Int.cast_natCast]
    exact div_self (by exact_mod_cast hcard)
  · intro w1 w2 hdisj
    have hint : (w1 ∩ w2).card = 0 := by
      rw [Finset.card_eq_zero]
      exact Finset.disjoint_iff_inter_eq_empty.mp hdisj
    simp only [jaccard]
    split
    · rfl
    · rw [hint]
      simp

/-- C6 witness: the acceptance theorem applied to a candidate list with an
exact (case-insensitive) title match. -/
theorem C6_title_matching_witness :
    (find_best_title_match "the great paper"
      [{ title := ["The Great Paper"] }]).isSome = true :=
  C6_title_matching_thresholds.2.2.1 "the great paper" [{ title := ["The Great Paper"] }]
    ⟨{ title := ["The Great Paper"] }, by decide, "The Great Paper", by decide,
     by simp only [oneHalf_eq_mkRat]; decide⟩

end Ingestor
